import Mathlib

/-!
Verification development for the ralph agent (src/ralph).

The definitions below are a shallow embedding of the iteration control loop
(src/ralph/agent.py), the notification policy and session store
(src/ralph/telegram.py, src/ralph/telegram_config.py) and the remote control
channel command dispatch (src/ralph/telegram.py).  Costs reported by the
worker are modelled as rationals, optional values as Option, and the
concurrent control calls (force_iteration, stop) as events interleaved with
the loop, exactly at the points where the python loop can observe them.
-/

namespace Ralph

/-! ## Notification configuration (telegram_config.py, NotificationConfig) -/

structure NotificationConfig where
  on_start : Bool := true
  on_complete : Bool := true
  on_error : Bool := true
  on_blocked : Bool := true
  every_n_iterations : Int := 0
  on_iteration : Bool := false
deriving DecidableEq

/-! ## Agent state (agent.py, RalphAgent attributes) -/

structure AgentState where
  name : String
  workingDir : String
  task : String
  iterations : Nat
  total_cost : ℚ
  paused : Bool
  should_stop : Bool
  prompt_injection : Option String
  current_task : Bool
deriving DecidableEq

/-- RalphAgent.__init__: counters at zero, all control flags clear. -/
def initialState (name workingDir task : String) : AgentState :=
  { name := name, workingDir := workingDir, task := task, iterations := 0,
    total_cost := 0, paused := false, should_stop := false,
    prompt_injection := none, current_task := false }

/-! ## Iteration prompt (agent.py, RalphAgent._build_iteration_prompt).
The prompt string is modelled as the list of the blocks the python code
concatenates: the iteration header, the task text, the optional TODO.md
reminder, and the optional one-time user hint section. -/

inductive PromptBlock where
  | header (iteration : Nat)
  | taskText (text : String)
  | todoReminder
  | userHint (text : String)
deriving DecidableEq

/-- _build_iteration_prompt: the hint, if present, is appended once and the
pending injection is cleared.  It is called after the iteration counter has
already been incremented, hence the header reads iterations + 1. -/
def buildIterationPrompt (s : AgentState) (todoExists : Bool) :
    List PromptBlock × AgentState :=
  let base := [PromptBlock.header (s.iterations + 1), PromptBlock.taskText s.task]
  let base := if todoExists then base ++ [PromptBlock.todoReminder] else base
  match s.prompt_injection with
  | some h => (base ++ [PromptBlock.userHint h], { s with prompt_injection := none })
  | none => (base, s)

/-! ## Control surface (agent.py, pause / resume / force_iteration / stop) -/

def pauseAgent (s : AgentState) : AgentState := { s with paused := true }

def resumeAgent (s : AgentState) : AgentState := { s with paused := false }

/-- force_iteration: store the hint when it is truthy (python `if hint:`: a
missing or empty hint stores nothing); the returned Bool records whether a
cancellation was issued, which the python code does exactly when
_current_task is live. -/
def force_iteration (hint : Option String) (s : AgentState) : AgentState × Bool :=
  let s1 := match hint with
    | some h => if h = "" then s else { s with prompt_injection := some h }
    | none => s
  (s1, s.current_task)

/-- stop: set _should_stop and cancel the in-flight task when live. -/
def stopAgent (s : AgentState) : AgentState × Bool :=
  ({ s with should_stop := true }, s.current_task)

/-- _cmd_hint, "prompt" subtype (telegram.py line 418): direct assignment to
agent._prompt_injection. -/
def injectPromptHint (text : String) (s : AgentState) : AgentState :=
  { s with prompt_injection := some text }

/-! ## One iteration (agent.py, RalphAgent.run_iteration) -/

/-- The terminal outcome of the worker event stream: either a ResultMessage
with turn count and cost, or an exception raised during the invocation. -/
inductive WorkerOutcome where
  | success (turns : Nat) (cost : ℚ)
  | failure (msg : String)
deriving DecidableEq

def WorkerOutcome.costDelta : WorkerOutcome → ℚ
  | .success _ c => c
  | .failure _ => 0

def WorkerOutcome.isSuccess : WorkerOutcome → Bool
  | .success _ _ => true
  | .failure _ => false

/-- The result dict produced by run_iteration. -/
structure IterationResult where
  iteration : Nat
  completed : Bool
  turns : Nat
  cost : ℚ
  error : Option String
deriving DecidableEq

/-- How an in-flight attempt ends: the stream finishes (normally or with an
exception caught by `except Exception`), or the task is cancelled
(asyncio.CancelledError, which is not an Exception and propagates past the
logging code). -/
inductive AttemptOutcome where
  | finished (w : WorkerOutcome)
  | cancelled
deriving DecidableEq

def AttemptOutcome.costDelta : AttemptOutcome → ℚ
  | .finished w => w.costDelta
  | .cancelled => 0

/-- Body of the `async for` in run_iteration once the terminal event arrives:
on a ResultMessage the result is marked completed and the cost is added to
total_cost; on an exception the error string is recorded and nothing is
added. -/
def runIterationFinish (s : AgentState) (w : WorkerOutcome) :
    AgentState × IterationResult :=
  match w with
  | .success turns cost =>
    ({ s with total_cost := s.total_cost + cost },
     { iteration := s.iterations, completed := true, turns := turns,
       cost := cost, error := none })
  | .failure msg =>
    (s, { iteration := s.iterations, completed := false, turns := 0,
          cost := 0, error := some msg })

/-- One whole attempt: run_iteration increments the counter first, builds the
prompt (consuming any pending injection), then consumes the stream.  On a
finished attempt the IterationResult is produced (and appended to the
iteration log by _log_iteration); on a cancelled attempt the CancelledError
skips the logging entirely, so no result is produced. -/
def runIterationFull (s : AgentState) (todoExists : Bool) (o : AttemptOutcome) :
    AgentState × List PromptBlock × Option IterationResult :=
  let s1 := { s with iterations := s.iterations + 1, current_task := true }
  let bp := buildIterationPrompt s1 todoExists
  match o with
  | .finished w =>
    let fin := runIterationFinish bp.2 w
    ({ fin.1 with current_task := false }, bp.1, some fin.2)
  | .cancelled => ({ bp.2 with current_task := false }, bp.1, none)

/-! ## The loop (agent.py, RalphAgent.run) -/

/-- `if self.max_iterations and self.iterations >= self.max_iterations`:
python truthiness makes both None and 0 mean no limit. -/
def maxReached (maxIterations : Option Nat) (iters : Nat) : Bool :=
  match maxIterations with
  | none => false
  | some m => m != 0 && decide (m ≤ iters)

/-- What happens during one trip around the while loop: the worker invocation
runs to its outcome, or it is cancelled mid-flight by force_iteration or by
stop, or a KeyboardInterrupt arrives. -/
inductive LoopEvent where
  | worker (w : WorkerOutcome)
  | forceCancel (hint : Option String)
  | stopCancel
  | interruptSignal
deriving DecidableEq

structure RunTrace where
  finalState : AgentState
  log : List IterationResult
  prompts : List (List PromptBlock)
  exited : Bool
deriving DecidableEq

/-- RalphAgent.run, driven by a finite schedule of events.  Each cycle first
checks _should_stop (the while condition), then the max-iterations limit,
then the pause flag (with fixed flags a paused loop waits without iterating:
exited = false, nothing consumed).  A worker event runs a full attempt and
logs its result; forceCancel and stopCancel cancel the in-flight attempt
(CancelledError caught in run, `continue`), after which run re-enters the
loop head; a KeyboardInterrupt leaves the loop at once.  If the schedule is
exhausted while the loop would keep going, exited = false. -/
def runLoop (maxI : Option Nat) (todoExists : Bool) :
    AgentState → List LoopEvent → RunTrace
  | s, [] =>
    if s.should_stop || maxReached maxI s.iterations then ⟨s, [], [], true⟩
    else ⟨s, [], [], false⟩
  | s, e :: rest =>
    if s.should_stop || maxReached maxI s.iterations then ⟨s, [], [], true⟩
    else if s.paused then ⟨s, [], [], false⟩
    else
      match e with
      | .worker w =>
        let x := runIterationFull s todoExists (.finished w)
        let tr := runLoop maxI todoExists x.1 rest
        ⟨tr.finalState, x.2.2.toList ++ tr.log, x.2.1 :: tr.prompts, tr.exited⟩
      | .forceCancel hint =>
        let x := runIterationFull s todoExists .cancelled
        let tr := runLoop maxI todoExists (force_iteration hint x.1).1 rest
        ⟨tr.finalState, tr.log, x.2.1 :: tr.prompts, tr.exited⟩
      | .stopCancel =>
        let x := runIterationFull s todoExists .cancelled
        let tr := runLoop maxI todoExists (stopAgent x.1).1 rest
        ⟨tr.finalState, tr.log, x.2.1 :: tr.prompts, tr.exited⟩
      | .interruptSignal => ⟨s, [], [], true⟩

/-! ## Session store (telegram.py, TelegramHandler._save_session,
notify_stop; telegram_config.py, get_sessions_path) -/

structure SessionRecord where
  name : String
  iterations : Nat
  cost : ℚ
  outcome : String
  workingDir : String
deriving DecidableEq

/-- _save_session: append, then keep only the last 100 entries
(`sessions[-100:]`). -/
def saveSession (hist : List SessionRecord) (r : SessionRecord) :
    List SessionRecord :=
  let all := hist ++ [r]
  all.drop (all.length - 100)

/-- The sessions.json file as read by _save_session and _cmd_history: a
missing or unreadable file is treated as empty. -/
inductive SessionsFile where
  | missing
  | corrupt
  | ok (l : List SessionRecord)
deriving DecidableEq

def loadSessions : SessionsFile → List SessionRecord
  | .missing => []
  | .corrupt => []
  | .ok l => l

/-- notify_stop line 585: `"interrupted" if agent._should_stop else
"completed"`. -/
def sessionOutcome (should_stop : Bool) : String :=
  if should_stop then "interrupted" else "completed"

def mkSessionRecord (s : AgentState) : SessionRecord :=
  { name := s.name, iterations := s.iterations, cost := s.total_cost,
    outcome := sessionOutcome s.should_stop, workingDir := s.workingDir }

/-- The finally-block of run: notify_stop (which archives the session) runs
only when a telegram handler is configured. -/
def finalizeRun (telegramActive : Bool) (hist : List SessionRecord)
    (s : AgentState) : List SessionRecord :=
  if telegramActive then saveSession hist (mkSessionRecord s) else hist

/-! ## Notification policy (telegram.py, TelegramHandler.notify_iteration,
lines 530-549).  The python code computes should_notify sequentially; the
file-existence check for BLOCKED.md is passed in as a Bool. -/

def shouldNotifyIteration (cfg : NotificationConfig) (iterations : Nat)
    (hasError : Bool) (blockedExists : Bool) : Bool :=
  let sn := cfg.on_iteration
  let sn := if 0 < cfg.every_n_iterations ∧
      (iterations : Int) % cfg.every_n_iterations = 0 then true else sn
  let sn := if hasError && cfg.on_error then true else sn
  let sn := if cfg.on_blocked && blockedExists then true else sn
  sn

/-- Modelled from the spec: section 4.4 states the iteration-event decision
as `on_iteration OR (every_n_iterations > 0 AND iterationNumber mod
every_n_iterations == 0) OR (event carries an error AND on_error)`.  This
definition follows the spec words, for comparison with
shouldNotifyIteration, which is translated from the code. -/
def shouldNotifyIterationSpec (cfg : NotificationConfig) (iterations : Nat)
    (hasError : Bool) : Bool :=
  cfg.on_iteration ||
    (decide (0 < cfg.every_n_iterations) &&
      decide ((iterations : Int) % cfg.every_n_iterations = 0)) ||
    (hasError && cfg.on_error)

/-! ## Remote control channel (telegram.py, command and callback handlers) -/

/-- _is_authorized: a missing effective_user is rejected; otherwise the
sender id must equal the configured user_id (comparing an int against a
missing configuration value is False in python). -/
def isAuthorized (effectiveUser : Option Int) (configUserId : Option Int) :
    Bool :=
  match effectiveUser with
  | none => false
  | some uid => configUserId == some uid

inductive Reply where
  | text (s : String)
  | html (s : String)
  | photo (caption : String)
deriving DecidableEq

def escapeHtml (t : String) : String :=
  ((t.replace "&" "&amp;").replace "<" "&lt;").replace ">" "&gt;"

/-- The 4000-character truncation with explicit marker used by
_send_file_content and _send_callback_file. -/
def truncateForMessage (content : String) : String :=
  if 4000 < content.length then content.take 4000 ++ "\n\n... (truncated)"
  else content

/-- _get_agent_state, priority Stopping over Paused over Running over Idle. -/
def agentStateLabel (s : AgentState) : String :=
  if s.should_stop then "Stopping"
  else if s.paused then "Paused"
  else if s.current_task then "Running"
  else "Idle"

/-- _cmd_status message body (duration omitted: wall-clock time is outside
the model). -/
def statusText (s : AgentState) : String :=
  "<b>" ++ s.name ++ "</b>\n\n<b>State:</b> " ++ agentStateLabel s ++
  "\n<b>Iteration:</b> " ++ toString s.iterations ++
  "\n<b>Cost:</b> $" ++ toString s.total_cost ++
  "\n<b>Directory:</b> <code>" ++ s.workingDir ++ "</code>"

/-- The file-system and agent-reference environment the handlers read. -/
structure BotEnv where
  agentPresent : Bool
  todoFile : Option String
  planFile : Option String
  notesFile : Option String
  logFile : Option String
  screenshotsDir : Option (List String)
  sessionsFile : SessionsFile
deriving DecidableEq

/-- _send_file_content and _send_callback_file share this shape. -/
def fileContentReplies (agentPresent : Bool) (content : Option String)
    (filename : String) : List Reply :=
  if !agentPresent then [Reply.text "No agent running."]
  else match content with
    | none => [Reply.text (filename ++ " does not exist yet.")]
    | some c =>
      [Reply.html ("<b>" ++ filename ++ "</b>\n\n<pre>" ++
        escapeHtml (truncateForMessage c) ++ "</pre>")]

/-- _cmd_log: an absent or unparsable count argument leaves the default 20;
the last n lines are sent, tail-truncated at 4000 characters. -/
def logReplies (env : BotEnv) (nArg : Option Int) : List Reply :=
  if !env.agentPresent then [Reply.text "No agent running."]
  else
    let nLines : Int := nArg.getD 20
    match env.logFile with
    | none => [Reply.text "No iteration log yet."]
    | some content =>
      let lines := content.trim.splitOn "\n"
      let lastLines := if nLines < (lines.length : Int) then
          lines.drop (lines.length - nLines.toNat) else lines
      let text := String.intercalate "\n" lastLines
      let text := if 4000 < text.length then text.drop (text.length - 4000)
        else text
      [Reply.html ("<b>Last " ++ toString nLines ++
        " lines of log:</b>\n\n<pre>" ++ escapeHtml text ++ "</pre>")]

/-- _cmd_screenshot: the directory listing is most-recent-first. -/
def screenshotReplies (env : BotEnv) : List Reply :=
  if !env.agentPresent then [Reply.text "No agent running."]
  else match env.screenshotsDir with
    | none => [Reply.text "No screenshots directory."]
    | some [] => [Reply.text "No screenshots available."]
    | some (latest :: _) =>
      [Reply.photo ("Latest screenshot: " ++ latest)]

/-- _cmd_history: note it reads only the sessions file, never self.agent. -/
def historyReplies (env : BotEnv) : List Reply :=
  match env.sessionsFile with
  | .missing => [Reply.text "No session history yet."]
  | .corrupt => [Reply.text "Error reading session history."]
  | .ok [] => [Reply.text "No sessions recorded."]
  | .ok (r :: rs) =>
    let l := r :: rs
    let recent := (l.drop (l.length - 10)).reverse
    [Reply.html ("<b>Session History (last 10)</b>\n" ++
      String.intercalate "\n" (recent.map (fun q =>
        q.name ++ " " ++ q.outcome ++ " | " ++ toString q.iterations ++
        " iters")))]

def hintUsageText : String :=
  "Usage:\n/hint todo <text> - Add to TODO.md\n/hint note <text> - Add to NOTES.md\n/hint prompt <text> - Inject into next iteration"

/-- The textual command surface registered in TelegramHandler.start. -/
inductive Command where
  | status
  | todo
  | plan
  | notes
  | logCmd (n : Option Int)
  | screenshot
  | history
  | pauseCmd
  | resumeCmd
  | force (args : List String)
  | stopCmd
  | hintCmd (args : List String)
  | help
deriving DecidableEq

/-- Dispatch of the _cmd_* handlers.  Every handler begins with the
_is_authorized check and returns silently when it fails; the hint todo/note
subtypes append to scratchpad files (outside the state modelled here) and
only reply. -/
def handleCommand (env : BotEnv) (authorized : Bool) (c : Command)
    (s : AgentState) : AgentState × List Reply :=
  if !authorized then (s, [])
  else
    match c with
    | .status =>
      if !env.agentPresent then (s, [Reply.text "No agent running."])
      else (s, [Reply.html (statusText s)])
    | .todo => (s, fileContentReplies env.agentPresent env.todoFile "TODO.md")
    | .plan => (s, fileContentReplies env.agentPresent env.planFile "PLAN.md")
    | .notes => (s, fileContentReplies env.agentPresent env.notesFile "NOTES.md")
    | .logCmd n => (s, logReplies env n)
    | .screenshot => (s, screenshotReplies env)
    | .history => (s, historyReplies env)
    | .pauseCmd =>
      if !env.agentPresent then (s, [Reply.text "No agent running."])
      else (pauseAgent s,
        [Reply.text ("Pausing " ++ s.name ++
          "... (will pause after current iteration)")])
    | .resumeCmd =>
      if !env.agentPresent then (s, [Reply.text "No agent running."])
      else (resumeAgent s, [Reply.text ("Resumed " ++ s.name)])
    | .force args =>
      if !env.agentPresent then (s, [Reply.text "No agent running."])
      else
        let hintArg := if args.isEmpty then none
          else some (String.intercalate " " args)
        let s1 := (force_iteration hintArg s).1
        match hintArg with
        | some h => (s1, [Reply.text ("Forcing new iteration with hint: " ++ h)])
        | none => (s1, [Reply.text "Forcing new iteration..."])
    | .stopCmd =>
      if !env.agentPresent then (s, [Reply.text "No agent running."])
      else ((stopAgent s).1, [Reply.text ("Stopping " ++ s.name ++ "...")])
    | .hintCmd args =>
      if !env.agentPresent then (s, [Reply.text "No agent running."])
      else
        match args with
        | [] => (s, [Reply.text hintUsageText])
        | [_] => (s, [Reply.text hintUsageText])
        | t :: restArgs =>
          let hintText := String.intercalate " " restArgs
          if t.toLower = "todo" then (s, [Reply.text "Added to TODO.md"])
          else if t.toLower = "note" then (s, [Reply.text "Added to NOTES.md"])
          else if t.toLower = "prompt" then
            (injectPromptHint hintText s,
             [Reply.text "Hint will be injected in next iteration"])
          else (s, [Reply.text ("Unknown hint type: " ++ t ++
            ". Use: todo, note, or prompt")])
    | .help => (s, [Reply.text "Ralph Telegram Commands"])

/-- The inline-button callback actions of _get_status_keyboard. -/
inductive CallbackAction where
  | pause
  | resume
  | force
  | stopBtn
  | todo
  | plan
  | notes
  | screenshot
deriving DecidableEq

structure CallbackResult where
  answered : Bool
  state : AgentState
  replies : List Reply
deriving DecidableEq

/-- _handle_callback: query.answer() is issued before the authorization
check (it carries no content); everything else happens only for the
authorized operator. -/
def handleCallback (env : BotEnv) (authorized : Bool) (a : CallbackAction)
    (s : AgentState) : CallbackResult :=
  if !authorized then ⟨true, s, []⟩
  else
    match a with
    | .pause =>
      if env.agentPresent then
        ⟨true, pauseAgent s, [Reply.text ("Pausing " ++ s.name ++ "...")]⟩
      else ⟨true, s, []⟩
    | .resume =>
      if env.agentPresent then
        ⟨true, resumeAgent s, [Reply.text ("Resumed " ++ s.name)]⟩
      else ⟨true, s, []⟩
    | .force =>
      if env.agentPresent then
        ⟨true, (force_iteration none s).1, [Reply.text "Forcing new iteration..."]⟩
      else ⟨true, s, []⟩
    | .stopBtn =>
      if env.agentPresent then
        ⟨true, (stopAgent s).1, [Reply.text ("Stopping " ++ s.name ++ "...")]⟩
      else ⟨true, s, []⟩
    | .todo => ⟨true, s, fileContentReplies env.agentPresent env.todoFile "TODO.md"⟩
    | .plan => ⟨true, s, fileContentReplies env.agentPresent env.planFile "PLAN.md"⟩
    | .notes => ⟨true, s, fileContentReplies env.agentPresent env.notesFile "NOTES.md"⟩
    | .screenshot =>
      if env.agentPresent then
        match env.screenshotsDir with
        | some (latest :: _) => ⟨true, s, [Reply.photo ("Latest: " ++ latest)]⟩
        | _ => ⟨true, s, [Reply.text "No screenshots available."]⟩
      else ⟨true, s, [Reply.text "No screenshots available."]⟩

/-! ## Helper lemmas about the loop embedding -/

theorem buildIterationPrompt_snd (s : AgentState) (todoExists : Bool) :
    (buildIterationPrompt s todoExists).2 = { s with prompt_injection := none } := by
  obtain ⟨n, wd, t, it, tc, p, st, pi, ct⟩ := s
  cases pi <;> rfl

theorem runIterationFull_fst (s : AgentState) (todoExists : Bool)
    (o : AttemptOutcome) :
    (runIterationFull s todoExists o).1 =
      { s with
        iterations := s.iterations + 1,
        current_task := false,
        prompt_injection := none,
        total_cost := s.total_cost + o.costDelta } := by
  obtain ⟨n, wd, t, it, tc, p, st, pi, ct⟩ := s
  cases o with
  | cancelled =>
    cases pi <;>
      simp [runIterationFull, buildIterationPrompt, AttemptOutcome.costDelta]
  | finished w =>
    cases w <;> cases pi <;>
      simp [runIterationFull, buildIterationPrompt, runIterationFinish,
        AttemptOutcome.costDelta, WorkerOutcome.costDelta]

theorem runIterationFull_result (s : AgentState) (todoExists : Bool)
    (w : WorkerOutcome) :
    (runIterationFull s todoExists (.finished w)).2.2 =
      some (match w with
        | .success t c =>
          { iteration := s.iterations + 1, completed := true, turns := t,
            cost := c, error := none }
        | .failure m =>
          { iteration := s.iterations + 1, completed := false, turns := 0,
            cost := 0, error := some m }) := by
  obtain ⟨n, wd, t, it, tc, p, st, pi, ct⟩ := s
  cases w <;> cases pi <;>
    simp [runIterationFull, buildIterationPrompt, runIterationFinish]

theorem runIterationFull_cancelled_result (s : AgentState) (todoExists : Bool) :
    (runIterationFull s todoExists .cancelled).2.2 = none := by
  obtain ⟨n, wd, t, it, tc, p, st, pi, ct⟩ := s
  cases pi <;> simp [runIterationFull, buildIterationPrompt]

theorem runIterationFull_prompt (s : AgentState) (todoExists : Bool)
    (o : AttemptOutcome) :
    (runIterationFull s todoExists o).2.1 =
      (buildIterationPrompt
        { s with iterations := s.iterations + 1, current_task := true }
        todoExists).1 := by
  cases o <;> rfl

theorem force_iteration_fst (hint : Option String) (s : AgentState) :
    (force_iteration hint s).1 =
      match hint with
      | some h => if h = "" then s else { s with prompt_injection := some h }
      | none => s := rfl

theorem force_iteration_fst_should_stop (hint : Option String) (s : AgentState) :
    (force_iteration hint s).1.should_stop = s.should_stop := by
  cases hint with
  | none => rfl
  | some h => by_cases hh : h = "" <;> simp [force_iteration, hh]

theorem force_iteration_fst_paused (hint : Option String) (s : AgentState) :
    (force_iteration hint s).1.paused = s.paused := by
  cases hint with
  | none => rfl
  | some h => by_cases hh : h = "" <;> simp [force_iteration, hh]

theorem force_iteration_fst_iterations (hint : Option String) (s : AgentState) :
    (force_iteration hint s).1.iterations = s.iterations := by
  cases hint with
  | none => rfl
  | some h => by_cases hh : h = "" <;> simp [force_iteration, hh]

theorem force_iteration_cancels (hint : Option String) (s : AgentState) :
    (force_iteration hint s).2 = s.current_task := rfl

/-- When a hint appended to no pending injection, the next prompt carries the
hint block exactly once: the header, task and reminder blocks are never
userHint blocks. -/
theorem buildIterationPrompt_count_some (s : AgentState) (todoExists : Bool)
    (h x : String) (hinj : s.prompt_injection = some h) :
    ((buildIterationPrompt s todoExists).1.count (PromptBlock.userHint x)) =
      if h = x then 1 else 0 := by
  cases todoExists <;>
    simp [buildIterationPrompt, hinj, List.count_append, List.count_cons,
      List.count_nil]

theorem buildIterationPrompt_count_none (s : AgentState) (todoExists : Bool)
    (x : String) (hinj : s.prompt_injection = none) :
    ((buildIterationPrompt s todoExists).1.count (PromptBlock.userHint x)) = 0 := by
  cases todoExists <;>
    simp [buildIterationPrompt, hinj, List.count_append, List.count_cons,
      List.count_nil]

/-- Workhorse for C1: along any schedule of finished worker invocations the
iteration counter advances once per attempt and the cumulative cost advances
by the reported (or zero, on failure) cost delta of each attempt. -/
theorem runLoop_workers_counters (todoExists : Bool) :
    ∀ (ws : List WorkerOutcome) (s : AgentState),
      s.should_stop = false → s.paused = false →
      (runLoop none todoExists s (ws.map LoopEvent.worker)).finalState.iterations
          = s.iterations + ws.length
      ∧ (runLoop none todoExists s (ws.map LoopEvent.worker)).finalState.total_cost
          = s.total_cost + (ws.map WorkerOutcome.costDelta).sum := by
  intro ws
  induction ws with
  | nil =>
    intro s h1 h2
    simp [runLoop, h1, maxReached]
  | cons w ws ih =>
    intro s h1 h2
    have hx := runIterationFull_fst s todoExists (.finished w)
    have ihx := ih (runIterationFull s todoExists (.finished w)).1
      (by rw [hx] ; exact h1) (by rw [hx] ; exact h2)
    have hit : (runIterationFull s todoExists (.finished w)).1.iterations
        = s.iterations + 1 := by rw [hx]
    have htc : (runIterationFull s todoExists (.finished w)).1.total_cost
        = s.total_cost + w.costDelta := by
      rw [hx] ; simp [AttemptOutcome.costDelta]
    rw [hit, htc] at ihx
    simp only [List.map_cons, runLoop, h1, maxReached, Bool.false_or, h2,
      if_false, Bool.false_eq_true, if_neg]
    constructor
    · rw [ihx.1] ; simp only [List.length_cons] ; omega
    · rw [ihx.2]
      simp only [List.map_cons, List.sum_cons]
      ring

/-- Workhorse for C4: every logged result carries an iteration number
strictly above the iteration counter at the time the schedule started. -/
theorem runLoop_log_iterations_gt (maxI : Option Nat) (todoExists : Bool) :
    ∀ (events : List LoopEvent) (s : AgentState) (r : IterationResult),
      r ∈ (runLoop maxI todoExists s events).log → s.iterations < r.iteration := by
  intro events
  induction events with
  | nil =>
    intro s r hr
    by_cases h : (s.should_stop || maxReached maxI s.iterations) = true <;>
      simp [runLoop, h] at hr
  | cons e rest ih =>
    intro s r hr
    by_cases h1 : (s.should_stop || maxReached maxI s.iterations) = true
    · simp [runLoop, h1] at hr
    · by_cases h2 : s.paused = true
      · simp [runLoop, h1, h2] at hr
      · cases e with
        | worker w =>
          simp only [runLoop, h1, h2, Bool.false_eq_true, if_neg, if_false,
            List.mem_append] at hr
          rcases hr with hr | hr
          · rw [runIterationFull_result] at hr
            cases w with
            | success t c =>
              simp only [Option.toList_some, List.mem_singleton] at hr
              subst hr
              show s.iterations < s.iterations + 1
              omega
            | failure m =>
              simp only [Option.toList_some, List.mem_singleton] at hr
              subst hr
              show s.iterations < s.iterations + 1
              omega
          · have h3 := ih _ _ hr
            have hit : (runIterationFull s todoExists (.finished w)).1.iterations
                = s.iterations + 1 := by rw [runIterationFull_fst]
            rw [hit] at h3
            omega
        | forceCancel hint =>
          simp only [runLoop, h1, h2, Bool.false_eq_true, if_neg, if_false] at hr
          have h3 := ih _ _ hr
          have hit : ((force_iteration hint
              (runIterationFull s todoExists .cancelled).1).1).iterations
              = s.iterations + 1 := by
            rw [force_iteration_fst_iterations, runIterationFull_fst]
          rw [hit] at h3
          omega
        | stopCancel =>
          simp only [runLoop, h1, h2, Bool.false_eq_true, if_neg, if_false] at hr
          have h3 := ih _ _ hr
          have hit : ((stopAgent
              (runIterationFull s todoExists .cancelled).1).1).iterations
              = s.iterations + 1 := by
            have hq : ((stopAgent
                (runIterationFull s todoExists .cancelled).1).1).iterations
                = (runIterationFull s todoExists .cancelled).1.iterations := rfl
            rw [hq, runIterationFull_fst]
          rw [hit] at h3
          omega
        | interruptSignal =>
          simp [runLoop, h1, h2] at hr

/-- Workhorse for C4: with no pending injection and a schedule of ordinary
worker invocations, no prompt ever carries a user hint block. -/
theorem runLoop_workers_no_hint (todoExists : Bool) (x : String) :
    ∀ (ws : List WorkerOutcome) (s : AgentState),
      s.should_stop = false → s.paused = false → s.prompt_injection = none →
      (runLoop none todoExists s (ws.map LoopEvent.worker)).prompts.map
        (fun p => p.count (PromptBlock.userHint x)) = List.replicate ws.length 0 := by
  intro ws
  induction ws with
  | nil =>
    intro s h1 h2 h3
    simp [runLoop, h1, maxReached]
  | cons w ws ih =>
    intro s h1 h2 h3
    have hx := runIterationFull_fst s todoExists (.finished w)
    have ihx := ih (runIterationFull s todoExists (.finished w)).1
      (by rw [hx] ; exact h1) (by rw [hx] ; exact h2) (by rw [hx])
    have hcount : ((runIterationFull s todoExists (.finished w)).2.1).count
        (PromptBlock.userHint x) = 0 := by
      rw [runIterationFull_prompt]
      exact buildIterationPrompt_count_none _ _ _ (by simpa using h3)
    simp only [List.map_cons, runLoop, h1, maxReached, Bool.false_or, h2,
      Bool.false_eq_true, if_neg, if_false, List.replicate_succ]
    simp [hcount, ihx, List.replicate_succ]

/-- One-step unfolding of the loop at a worker event. -/
theorem runLoop_worker_step (maxI : Option Nat) (todoExists : Bool)
    (s : AgentState) (w : WorkerOutcome) (rest : List LoopEvent)
    (h1 : s.should_stop = false) (h2 : s.paused = false)
    (h3 : maxReached maxI s.iterations = false) :
    runLoop maxI todoExists s (LoopEvent.worker w :: rest)
      = { finalState := (runLoop maxI todoExists
            (runIterationFull s todoExists (.finished w)).1 rest).finalState,
          log := (runIterationFull s todoExists (.finished w)).2.2.toList
            ++ (runLoop maxI todoExists
              (runIterationFull s todoExists (.finished w)).1 rest).log,
          prompts := (runIterationFull s todoExists (.finished w)).2.1
            :: (runLoop maxI todoExists
              (runIterationFull s todoExists (.finished w)).1 rest).prompts,
          exited := (runLoop maxI todoExists
            (runIterationFull s todoExists (.finished w)).1 rest).exited } := by
  simp [runLoop, h1, h2, h3]

/-- One-step unfolding of the loop at a force cancellation. -/
theorem runLoop_forceCancel_step (maxI : Option Nat) (todoExists : Bool)
    (s : AgentState) (hint : Option String) (rest : List LoopEvent)
    (h1 : s.should_stop = false) (h2 : s.paused = false)
    (h3 : maxReached maxI s.iterations = false) :
    runLoop maxI todoExists s (LoopEvent.forceCancel hint :: rest)
      = { finalState := (runLoop maxI todoExists
            (force_iteration hint
              (runIterationFull s todoExists .cancelled).1).1 rest).finalState,
          log := (runLoop maxI todoExists
            (force_iteration hint
              (runIterationFull s todoExists .cancelled).1).1 rest).log,
          prompts := (runIterationFull s todoExists .cancelled).2.1
            :: (runLoop maxI todoExists
              (force_iteration hint
                (runIterationFull s todoExists .cancelled).1).1 rest).prompts,
          exited := (runLoop maxI todoExists
            (force_iteration hint
              (runIterationFull s todoExists .cancelled).1).1 rest).exited } := by
  simp [runLoop, h1, h2, h3]

theorem getLast?_drop_of_lt {α : Type _} :
    ∀ (l : List α) (k : Nat), k < l.length → (l.drop k).getLast? = l.getLast? := by
  intro l
  induction l with
  | nil => intro k hk ; simp at hk
  | cons a l ih =>
    intro k hk
    cases k with
    | zero => rfl
    | succ k =>
      simp only [List.length_cons, Nat.succ_lt_succ_iff] at hk
      cases l with
      | nil => simp at hk
      | cons b m =>
        rw [List.drop_succ_cons, ih k hk, List.getLast?_cons_cons]

/-! ## Claims -/

/-- Claim C5, counterexample to the claim as stated: with on_iteration
false, every_n_iterations 0 and no error, the decision of notify_iteration
still notifies when BLOCKED.md exists and on_blocked is set, while the
three-disjunct formula of the claim evaluates to false. -/
theorem notifyIteration_iff_counterexample :
    shouldNotifyIteration
      { on_start := true, on_complete := true, on_error := true,
        on_blocked := true, every_n_iterations := 0, on_iteration := false }
      3 false true = true
    ∧ shouldNotifyIterationSpec
      { on_start := true, on_complete := true, on_error := true,
        on_blocked := true, every_n_iterations := 0, on_iteration := false }
      3 false = false := by
  exact ⟨by decide, by decide⟩

/-- Claim C5 (amended): the iteration-event notification decision emits iff
on_iteration is set, or every_n_iterations is positive and divides the
iteration number, or the result carries an error and on_error is set, or
the blocked marker file exists and on_blocked is set. -/
theorem notifyIteration_decision_characterization (cfg : NotificationConfig)
    (i : Nat) (e b : Bool) :
    shouldNotifyIteration cfg i e b =
      (shouldNotifyIterationSpec cfg i e || (cfg.on_blocked && b)) := by
  by_cases hp : 0 < cfg.every_n_iterations
  · by_cases hm : (i : Int) % cfg.every_n_iterations = 0
    · simp only [shouldNotifyIteration, shouldNotifyIterationSpec]
      cases e <;> cases b <;> cases hoi : cfg.on_iteration <;>
        cases hoe : cfg.on_error <;> cases hob : cfg.on_blocked <;>
        simp [hp, hm]
    · simp only [shouldNotifyIteration, shouldNotifyIterationSpec]
      cases e <;> cases b <;> cases hoi : cfg.on_iteration <;>
        cases hoe : cfg.on_error <;> cases hob : cfg.on_blocked <;>
        simp [hp, hm]
  · simp only [shouldNotifyIteration, shouldNotifyIterationSpec]
    cases e <;> cases b <;> cases hoi : cfg.on_iteration <;>
      cases hoe : cfg.on_error <;> cases hob : cfg.on_blocked <;>
      simp [hp]

/-- Claim C6, counterexample to the claim as stated: with
every_n_iterations = 5 the decision is not independent of the other flags:
when on_iteration is set, it returns true at iteration 1, where the claim
requires false. -/
theorem notifyIteration_every5_counterexample :
    shouldNotifyIteration
      { on_start := true, on_complete := true, on_error := false,
        on_blocked := false, every_n_iterations := 5, on_iteration := true }
      1 false false = true := by decide

/-- Claim C6 (amended): with every_n_iterations = 5, on_iteration unset, no
error on the result and no blocked marker, the decision is true exactly at
multiples of 5, whatever on_start, on_complete, on_error and on_blocked
are. -/
theorem notifyIteration_every5 (cfg : NotificationConfig) (i : Nat)
    (h5 : cfg.every_n_iterations = 5) (hoi : cfg.on_iteration = false) :
    shouldNotifyIteration cfg i false false = decide (i % 5 = 0) := by
  have hint5 : ((i : Int) % 5 = 0) ↔ (i % 5 = 0) := by omega
  have h05 : (0 : Int) < 5 := by norm_num
  by_cases h : i % 5 = 0 <;>
    simp [shouldNotifyIteration, h5, hoi, hint5, h, h05]

/-- Claim C6, witness: concrete evaluations through the amended theorem, at
a configuration with the other flags set both ways. -/
theorem notifyIteration_every5_witness :
    ({ on_start := true, on_complete := true, on_error := true,
       on_blocked := true, every_n_iterations := 5, on_iteration := false }
      : NotificationConfig).every_n_iterations = 5
    ∧ shouldNotifyIteration
      { on_start := true, on_complete := true, on_error := true,
        on_blocked := true, every_n_iterations := 5, on_iteration := false }
      5 false false = decide (5 % 5 = 0)
    ∧ shouldNotifyIteration
      { on_start := true, on_complete := true, on_error := true,
        on_blocked := true, every_n_iterations := 5, on_iteration := false }
      3 false false = decide (3 % 5 = 0) :=
  ⟨by decide,
   notifyIteration_every5 _ 5 (by decide) (by decide),
   notifyIteration_every5 _ 3 (by decide) (by decide)⟩

theorem saveSession_length_le (hist : List SessionRecord) (r : SessionRecord) :
    (saveSession hist r).length ≤ 100 := by
  simp only [saveSession, List.length_drop]
  omega

theorem saveSession_suffix (hist : List SessionRecord) (r : SessionRecord) :
    saveSession hist r <:+ hist ++ [r] :=
  List.drop_suffix _ _

theorem saveSession_getLast (hist : List SessionRecord) (r : SessionRecord) :
    (saveSession hist r).getLast? = some r := by
  simp only [saveSession]
  rw [getLast?_drop_of_lt _ _ (by simp ; omega)]
  exact List.getLast?_concat _

/-- Claim C8: a saved session history never exceeds 100 entries, is a
suffix of the previous history with the new record appended (so only the
oldest entries are dropped), and ends with the new record; the bound needs
no assumption on the incoming history, so it holds however many sessions
have been appended. -/
theorem sessionHistory_capped (hist : List SessionRecord) (r : SessionRecord) :
    (saveSession hist r).length ≤ 100
    ∧ saveSession hist r <:+ hist ++ [r]
    ∧ (saveSession hist r).getLast? = some r :=
  ⟨saveSession_length_le hist r, saveSession_suffix hist r,
   saveSession_getLast hist r⟩

/-- Claim C1: after N completed (non-interrupted) iterations the iteration
counter equals N and the cumulative cost equals the sum of the cost deltas
reported by the terminal worker result of each iteration. -/
theorem iterations_and_cost_after_workers (name dir task : String)
    (todoExists : Bool) (ws : List WorkerOutcome)
    (h : ∀ w ∈ ws, w.isSuccess = true) :
    (runLoop none todoExists (initialState name dir task)
        (ws.map LoopEvent.worker)).finalState.iterations = ws.length
    ∧ (runLoop none todoExists (initialState name dir task)
        (ws.map LoopEvent.worker)).finalState.total_cost
      = (ws.map WorkerOutcome.costDelta).sum := by
  have h2 := runLoop_workers_counters todoExists ws (initialState name dir task)
    rfl rfl
  simpa [initialState] using h2

/-- Claim C1, witness: two successful iterations with costs 1 and 2. -/
theorem iterations_and_cost_after_workers_witness :
    (([WorkerOutcome.success 2 1, WorkerOutcome.success 3 2] :
        List WorkerOutcome).all WorkerOutcome.isSuccess = true)
    ∧ ((runLoop none false (initialState "agent" "/work" "task")
        (([WorkerOutcome.success 2 1, WorkerOutcome.success 3 2] :
          List WorkerOutcome).map LoopEvent.worker)).finalState.iterations
      = ([WorkerOutcome.success 2 1, WorkerOutcome.success 3 2] :
          List WorkerOutcome).length
    ∧ (runLoop none false (initialState "agent" "/work" "task")
        (([WorkerOutcome.success 2 1, WorkerOutcome.success 3 2] :
          List WorkerOutcome).map LoopEvent.worker)).finalState.total_cost
      = (([WorkerOutcome.success 2 1, WorkerOutcome.success 3 2] :
          List WorkerOutcome).map WorkerOutcome.costDelta).sum) :=
  ⟨by decide,
   iterations_and_cost_after_workers "agent" "/work" "task" false
     [WorkerOutcome.success 2 1, WorkerOutcome.success 3 2] (by decide)⟩

/-- Claim C9: an exception raised during the worker invocation is recorded
in the result error field of that iteration, a result is produced and logged for
every finished outcome, and the failure does not stop the loop: the trace
continues into the remaining schedule. -/
theorem worker_failure_recovery (maxI : Option Nat) (todoExists : Bool)
    (s : AgentState) (m : String) (rest : List LoopEvent)
    (h1 : s.should_stop = false) (h2 : s.paused = false)
    (h3 : maxReached maxI s.iterations = false) :
    (runIterationFull s todoExists (.finished (.failure m))).2.2
      = some { iteration := s.iterations + 1, completed := false, turns := 0,
               cost := 0, error := some m }
    ∧ (∀ w : WorkerOutcome,
        ((runIterationFull s todoExists (.finished w)).2.2).isSome = true)
    ∧ (runLoop maxI todoExists s (LoopEvent.worker (.failure m) :: rest)).log
      = { iteration := s.iterations + 1, completed := false, turns := 0,
          cost := 0, error := some m }
        :: (runLoop maxI todoExists
            (runIterationFull s todoExists (.finished (.failure m))).1 rest).log
    ∧ (runLoop maxI todoExists s (LoopEvent.worker (.failure m) :: rest)).exited
      = (runLoop maxI todoExists
          (runIterationFull s todoExists (.finished (.failure m))).1 rest).exited
    ∧ (runIterationFull s todoExists (.finished (.failure m))).1.should_stop
      = false := by
  refine ⟨?_, ?_, ?_, ?_, ?_⟩
  · exact runIterationFull_result s todoExists (.failure m)
  · intro w
    rw [runIterationFull_result]
    cases w <;> rfl
  · simp [runLoop, h1, h2, h3, runIterationFull_result]
  · simp [runLoop, h1, h2, h3]
  · rw [runIterationFull_fst]
    exact h1

/-- Claim C9, witness: a single failing invocation is logged with its error
and the loop is still running afterwards. -/
theorem worker_failure_recovery_witness :
    (initialState "a" "/w" "t").should_stop = false
    ∧ (runLoop none false (initialState "a" "/w" "t")
        [LoopEvent.worker (WorkerOutcome.failure "boom")]).log
      = [{ iteration := 1, completed := false, turns := 0, cost := 0,
           error := some "boom" }]
    ∧ (runLoop none false (initialState "a" "/w" "t")
        [LoopEvent.worker (WorkerOutcome.failure "boom")]).exited = false := by
  have h := worker_failure_recovery none false (initialState "a" "/w" "t")
    "boom" [] rfl rfl rfl
  refine ⟨rfl, ?_, ?_⟩
  · rw [h.2.2.1] ; rfl
  · rw [h.2.2.2.1] ; rfl

/-- Once _should_stop is set, the loop head exits at once, whatever the
remaining schedule. -/
theorem runLoop_stopped (maxI : Option Nat) (todoExists : Bool)
    (s : AgentState) (events : List LoopEvent) (h : s.should_stop = true) :
    runLoop maxI todoExists s events = ⟨s, [], [], true⟩ := by
  cases events <;> simp [runLoop, h]

/-- Claim C2, counterexample to the claim as stated: a force cancellation
with stopping unset does not always start a fresh iteration.  With
max_iterations = 1, the cancelled attempt has already advanced the counter
to 1, so after the cancellation the loop exits at the limit check: the
trace built exactly one prompt and never started the scheduled second
invocation. -/
theorem force_at_limit_counterexample :
    (runLoop (some 1) false (initialState "a" "/w" "t")
      [LoopEvent.forceCancel none,
       LoopEvent.worker (WorkerOutcome.success 1 0)]).exited = true
    ∧ (runLoop (some 1) false (initialState "a" "/w" "t")
        [LoopEvent.forceCancel none,
         LoopEvent.worker (WorkerOutcome.success 1 0)]).prompts.length = 1
    ∧ (runLoop (some 1) false (initialState "a" "/w" "t")
        [LoopEvent.forceCancel none,
         LoopEvent.worker (WorkerOutcome.success 1 0)]).log = [] :=
  ⟨rfl, rfl, rfl⟩

/-- Claim C2 (amended): after an in-flight invocation is cancelled the loop
decides between exit and retry by re-checking _should_stop.  A cancellation
issued by stop terminates the loop with no further attempt and nothing
logged for the cancelled attempt; a cancellation issued by force, with
stopping unset, starts a fresh iteration provided the loop is not paused
and the iteration limit has not been reached. -/
theorem cancellation_decides_by_stop_flag (maxI : Option Nat)
    (todoExists : Bool) (s : AgentState) (hint : Option String)
    (w : WorkerOutcome) (rest : List LoopEvent)
    (h1 : s.should_stop = false) (h2 : s.paused = false)
    (h3 : maxReached maxI s.iterations = false)
    (h4 : maxReached maxI (s.iterations + 1) = false) :
    (runLoop maxI todoExists s (LoopEvent.stopCancel :: rest)).exited = true
    ∧ (runLoop maxI todoExists s (LoopEvent.stopCancel :: rest)).prompts.length
      = 1
    ∧ (runLoop maxI todoExists s (LoopEvent.stopCancel :: rest)).log = []
    ∧ 2 ≤ (runLoop maxI todoExists s
        (LoopEvent.forceCancel hint :: LoopEvent.worker w :: rest)).prompts.length := by
  have hstop : ((stopAgent (runIterationFull s todoExists .cancelled).1).1).should_stop
      = true := rfl
  have hstopped := runLoop_stopped maxI todoExists
    (stopAgent (runIterationFull s todoExists .cancelled).1).1 rest hstop
  refine ⟨?_, ?_, ?_, ?_⟩
  · simp [runLoop, h1, h2, h3, hstopped]
  · simp [runLoop, h1, h2, h3, hstopped]
  · simp [runLoop, h1, h2, h3, hstopped]
  · have hs2 : ((force_iteration hint
        (runIterationFull s todoExists .cancelled).1).1).should_stop = false := by
      rw [force_iteration_fst_should_stop, runIterationFull_fst]
      exact h1
    have hp2 : ((force_iteration hint
        (runIterationFull s todoExists .cancelled).1).1).paused = false := by
      rw [force_iteration_fst_paused, runIterationFull_fst]
      exact h2
    have hi2 : ((force_iteration hint
        (runIterationFull s todoExists .cancelled).1).1).iterations
        = s.iterations + 1 := by
      rw [force_iteration_fst_iterations, runIterationFull_fst]
    simp [runLoop, h1, h2, h3, hs2, hp2, hi2, h4]

/-- Claim C2, witness: a stop cancellation exits; a force cancellation with
no limit configured starts a fresh iteration. -/
theorem cancellation_decides_by_stop_flag_witness :
    maxReached none (initialState "a" "/w" "t").iterations = false
    ∧ (runLoop none false (initialState "a" "/w" "t")
        [LoopEvent.stopCancel]).exited = true
    ∧ 2 ≤ (runLoop none false (initialState "a" "/w" "t")
        [LoopEvent.forceCancel (some "x"),
         LoopEvent.worker (WorkerOutcome.success 1 0)]).prompts.length := by
  have h := cancellation_decides_by_stop_flag none false
    (initialState "a" "/w" "t") (some "x") (WorkerOutcome.success 1 0) []
    rfl rfl rfl rfl
  exact ⟨rfl, h.1, h.2.2.2⟩

/-- Claim C3, counterexample to the claim as stated: a loop exit caused by
a KeyboardInterrupt leaves _should_stop unset, so notify_stop archives the
session with outcome completed, not interrupted; and with no telegram
handler configured nothing is appended at all. -/
theorem interrupt_archival_counterexample :
    (runLoop none false (initialState "a" "/w" "t")
      [LoopEvent.interruptSignal]).exited = true
    ∧ (mkSessionRecord (runLoop none false (initialState "a" "/w" "t")
        [LoopEvent.interruptSignal]).finalState).outcome = "completed"
    ∧ finalizeRun false [] (runLoop none false (initialState "a" "/w" "t")
        [LoopEvent.interruptSignal]).finalState = [] :=
  ⟨rfl, rfl, rfl⟩

/-- Claim C3 (amended): when the control channel is active, loop
finalization appends exactly one SessionRecord (at the end of the capped
history), and its outcome tag is interrupted exactly when _should_stop is
set at exit, which stop() sets; exits with the flag unset, such as
reaching max_iterations or a KeyboardInterrupt, are archived as
completed. -/
theorem session_archival (hist : List SessionRecord) (s : AgentState) :
    finalizeRun true hist s = saveSession hist (mkSessionRecord s)
    ∧ (finalizeRun true hist s).getLast? = some (mkSessionRecord s)
    ∧ finalizeRun true hist s <:+ hist ++ [mkSessionRecord s]
    ∧ ((mkSessionRecord s).outcome = "interrupted" ↔ s.should_stop = true)
    ∧ (stopAgent s).1.should_stop = true := by
  have hne : ("completed" : String) ≠ "interrupted" := by decide
  refine ⟨rfl, saveSession_getLast _ _, saveSession_suffix _ _, ?_, rfl⟩
  cases h : s.should_stop <;> simp [mkSessionRecord, sessionOutcome, h, hne]

theorem force_iteration_sets_injection (x : String) (s : AgentState)
    (hx : x ≠ "") :
    (force_iteration (some x) s).1.prompt_injection = some x := by
  simp [force_iteration, hx]

/-- Claim C4: force_iteration with a hint cancels a live in-flight
invocation; the cancelled attempt logs nothing (every logged result belongs
to a later iteration); and the prompt of the next iteration carries the hint
block exactly once, after which the cleared injection never reappears in
any later prompt of the schedule. -/
theorem forceIteration_hint (todoExists : Bool) (x : String) (s : AgentState)
    (w : WorkerOutcome) (ws : List WorkerOutcome)
    (hx : x ≠ "") (h1 : s.should_stop = false) (h2 : s.paused = false) :
    (∀ q : AgentState, q.current_task = true →
      (force_iteration (some x) q).2 = true)
    ∧ (∀ r ∈ (runLoop none todoExists s
        (LoopEvent.forceCancel (some x) :: LoopEvent.worker w
          :: ws.map LoopEvent.worker)).log,
        s.iterations + 1 < r.iteration)
    ∧ (runLoop none todoExists s
        (LoopEvent.forceCancel (some x) :: LoopEvent.worker w
          :: ws.map LoopEvent.worker)).prompts.tail.map
        (fun p => p.count (PromptBlock.userHint x))
      = 1 :: List.replicate ws.length 0 := by
  have hs2 : ((force_iteration (some x)
      (runIterationFull s todoExists .cancelled).1).1).should_stop = false := by
    rw [force_iteration_fst_should_stop, runIterationFull_fst]
    exact h1
  have hp2 : ((force_iteration (some x)
      (runIterationFull s todoExists .cancelled).1).1).paused = false := by
    rw [force_iteration_fst_paused, runIterationFull_fst]
    exact h2
  have hi2 : ((force_iteration (some x)
      (runIterationFull s todoExists .cancelled).1).1).iterations
      = s.iterations + 1 := by
    rw [force_iteration_fst_iterations, runIterationFull_fst]
  have hinj2 : ((force_iteration (some x)
      (runIterationFull s todoExists .cancelled).1).1).prompt_injection
      = some x := force_iteration_sets_injection x _ hx
  have hstep1 := runLoop_forceCancel_step none todoExists s (some x)
    (LoopEvent.worker w :: ws.map LoopEvent.worker) h1 h2 rfl
  have hstep2 := runLoop_worker_step none todoExists
    ((force_iteration (some x) (runIterationFull s todoExists .cancelled).1).1)
    w (ws.map LoopEvent.worker) hs2 hp2 rfl
  refine ⟨?_, ?_, ?_⟩
  · intro q hq
    rw [force_iteration_cancels]
    exact hq
  · intro r hr
    rw [hstep1] at hr
    have h3 := runLoop_log_iterations_gt none todoExists _ _ r hr
    rw [hi2] at h3
    exact h3
  · have hx3 := runIterationFull_fst
      ((force_iteration (some x) (runIterationFull s todoExists .cancelled).1).1)
      todoExists (.finished w)
    have htail := runLoop_workers_no_hint todoExists x ws
      (runIterationFull ((force_iteration (some x)
        (runIterationFull s todoExists .cancelled).1).1)
        todoExists (.finished w)).1
      (by rw [hx3] ; exact hs2) (by rw [hx3] ; exact hp2) (by rw [hx3])
    have hcount : ((runIterationFull ((force_iteration (some x)
        (runIterationFull s todoExists .cancelled).1).1)
        todoExists (.finished w)).2.1).count (PromptBlock.userHint x) = 1 := by
      rw [runIterationFull_prompt]
      rw [buildIterationPrompt_count_some _ _ x x (by simpa using hinj2)]
      simp
    rw [hstep1, hstep2]
    simp [htail, hcount]

/-- Claim C4, witness: forcing with hint "focus" during iteration one makes
the second prompt carry the hint exactly once. -/
theorem forceIteration_hint_witness :
    ("focus" : String) ≠ ""
    ∧ (runLoop none false (initialState "a" "/w" "t")
        [LoopEvent.forceCancel (some "focus"),
         LoopEvent.worker (WorkerOutcome.success 1 0)]).prompts.tail.map
        (fun p => p.count (PromptBlock.userHint "focus")) = [1] := by
  have h := forceIteration_hint false "focus" (initialState "a" "/w" "t")
    (WorkerOutcome.success 1 0) [] (by decide) rfl rfl
  exact ⟨by decide, by simpa using h.2.2⟩

/-- A sample handler environment for concrete evaluations. -/
def sampleEnv : BotEnv :=
  { agentPresent := true, todoFile := none, planFile := none,
    notesFile := none, logFile := none, screenshotsDir := none,
    sessionsFile := .missing }

/-- Claim C7: a sender whose user id differs from the configured operator
id gets no reply from any command handler and no reply from any inline
button callback, and the agent control state is unchanged in both cases. -/
theorem unauthorized_silently_ignored (env : BotEnv) (s : AgentState)
    (uid op : Int) (hne : uid ≠ op) :
    (∀ c : Command,
      handleCommand env (isAuthorized (some uid) (some op)) c s = (s, []))
    ∧ (∀ a : CallbackAction,
      (handleCallback env (isAuthorized (some uid) (some op)) a s).state = s
      ∧ (handleCallback env (isAuthorized (some uid) (some op)) a s).replies
        = []) := by
  have hauth : isAuthorized (some uid) (some op) = false := by
    simp only [isAuthorized, beq_eq_false_iff_ne, ne_eq, Option.some.injEq]
    exact fun h => hne h.symm
  constructor
  · intro c
    simp [handleCommand, hauth]
  · intro a
    constructor <;> simp [handleCallback, hauth]

/-- Claim C7, witness: an unauthorized stop command and stop button leave
the state unchanged and produce no reply. -/
theorem unauthorized_silently_ignored_witness :
    (99 : Int) ≠ 1
    ∧ handleCommand sampleEnv (isAuthorized (some 99) (some 1))
        Command.stopCmd (initialState "a" "/w" "t")
      = (initialState "a" "/w" "t", [])
    ∧ (handleCallback sampleEnv (isAuthorized (some 99) (some 1))
        CallbackAction.stopBtn (initialState "a" "/w" "t")).replies = [] := by
  have h := unauthorized_silently_ignored sampleEnv (initialState "a" "/w" "t")
    99 1 (by decide)
  exact ⟨by decide, h.1 Command.stopCmd, (h.2 CallbackAction.stopBtn).2⟩

/-- The two places that set a pending prompt hint: force_iteration with a
hint (agent.py line 237) and the hint prompt command (telegram.py line
418). -/
inductive HintSetter where
  | viaForce
  | viaCommand
deriving DecidableEq

def applyHintSetter : HintSetter → String → AgentState → AgentState
  | .viaForce, h, s => (force_iteration (some h) s).1
  | .viaCommand, h, s => injectPromptHint h s

/-- Claim C10: the pending hint is a single optional slot, so setting a
hint while an earlier one is unconsumed replaces it: after two sets, by
either mechanism, the pending hint is the second one, the next prompt
carries the second hint exactly once and not the first, and building the
prompt clears the slot. -/
theorem hint_last_writer_wins (a b : HintSetter) (h1 h2 : String)
    (s : AgentState) (todoExists : Bool) (hne1 : h1 ≠ "") (hne2 : h2 ≠ "") :
    (applyHintSetter b h2 (applyHintSetter a h1 s)).prompt_injection = some h2
    ∧ ((buildIterationPrompt (applyHintSetter b h2 (applyHintSetter a h1 s))
        todoExists).1.count (PromptBlock.userHint h2)) = 1
    ∧ (h1 ≠ h2 →
      ((buildIterationPrompt (applyHintSetter b h2 (applyHintSetter a h1 s))
        todoExists).1.count (PromptBlock.userHint h1)) = 0)
    ∧ (buildIterationPrompt (applyHintSetter b h2 (applyHintSetter a h1 s))
        todoExists).2.prompt_injection = none := by
  have hinj : (applyHintSetter b h2 (applyHintSetter a h1 s)).prompt_injection
      = some h2 := by
    cases b <;>
      simp [applyHintSetter, force_iteration, injectPromptHint, hne2]
  refine ⟨hinj, ?_, ?_, ?_⟩
  · rw [buildIterationPrompt_count_some _ _ _ _ hinj]
    simp
  · intro hne
    rw [buildIterationPrompt_count_some _ _ _ _ hinj, if_neg (Ne.symm hne)]
  · rw [buildIterationPrompt_snd]

/-- Claim C10, witness: a force hint then a prompt-command hint; only the
second survives. -/
theorem hint_last_writer_wins_witness :
    ("one" : String) ≠ ""
    ∧ ("two" : String) ≠ ""
    ∧ (applyHintSetter HintSetter.viaCommand "two"
        (applyHintSetter HintSetter.viaForce "one"
          (initialState "a" "/w" "t"))).prompt_injection = some "two"
    ∧ ((buildIterationPrompt (applyHintSetter HintSetter.viaCommand "two"
        (applyHintSetter HintSetter.viaForce "one"
          (initialState "a" "/w" "t"))) false).1.count
        (PromptBlock.userHint "two")) = 1 := by
  have h := hint_last_writer_wins HintSetter.viaForce HintSetter.viaCommand
    "one" "two" (initialState "a" "/w" "t") false (by decide) (by decide)
  exact ⟨by decide, by decide, h.1, h.2.1⟩

end Ralph
